import Mathlib

/-!
A shallow embedding of the `circuit-breaker` Go package
(`circuitbreaker.go`, `state.go`, `logger.go`) and proofs about it.

Modelling conventions:
* Wall-clock instants (`time.Time`) and durations (`time.Duration`) are
  modelled as `Int` nanoseconds.  Go's zero `time.Time{}` is the instant `0`.
  Functions that call `time.Now()`/`time.Since(t)` internally instead take an
  explicit `now : Int` parameter, and `time.Since t` becomes `now - t`.
* The `uint32` counters and thresholds are modelled as `Nat` values kept
  below `2 ^ 32`; every write that increments goes through `% 2 ^ 32`, so
  `x++` on a `uint32` becomes `(x + 1) % 2 ^ 32`.
* The logger is operationally irrelevant (the interface is only ever used
  for logging calls whose results are ignored); it is modelled as an
  opaque handle `logger : Nat` so that preservation of the configured
  logger is still expressible.
* Mutexes are dropped in the sequential semantics; the lock/unlock/write
  ordering of the three `Counter` critical sections is additionally
  transcribed as explicit event traces to reason about the lock discipline.
-/

namespace CircuitBreakerGo

/-- Nanoseconds per second, the unit of Go `time.Duration`. -/
def nsPerSecond : Int := 1000000000

/-- Go `time.Minute` in nanoseconds. -/
def nsPerMinute : Int := 60 * nsPerSecond

/-- Go `time.Hour` in nanoseconds. -/
def nsPerHour : Int := 60 * nsPerMinute

/-- `Status` from `state.go`: `StatusClosed = 0`, `StatusOpen = 1`,
`StatusHalfOpen = 2`. -/
inductive Status where
  | StatusClosed
  | StatusOpen
  | StatusHalfOpen
deriving DecidableEq, Repr

/-- `Status.String` from `state.go`. -/
def Status.toGoString : Status → String
  | .StatusClosed => "closed"
  | .StatusOpen => "open"
  | .StatusHalfOpen => "half-open"

/-- The `Counter` struct from `circuitbreaker.go` (mutex dropped;
`failure`/`success` are `uint32`, timestamps and `resetPeriod` are
nanosecond instants/durations). -/
structure Counter where
  failure : Nat
  success : Nat
  lastFail : Int
  lastSuccess : Int
  resetPeriod : Int
deriving DecidableEq, Repr

/-- The zero-valued `&Counter{}` that `New` allocates: all fields are Go
zero values. -/
def Counter.new : Counter :=
  { failure := 0, success := 0, lastFail := 0, lastSuccess := 0, resetPeriod := 0 }

/-- `Counter.Fail` from `circuitbreaker.go`:
if `time.Since(c.lastFail) > c.resetPeriod` then `c.failure = 0`;
`c.lastFail = time.Now()`; `c.failure++`; `c.success = 0`;
return `c.failure`.  Returns the updated counter together with the
returned `uint32`. -/
def Counter.Fail (c : Counter) (now : Int) : Counter × Nat :=
  let f0 := if now - c.lastFail > c.resetPeriod then 0 else c.failure
  let f1 := (f0 + 1) % 2 ^ 32
  ({ c with failure := f1, lastFail := now, success := 0 }, f1)

/-- `Counter.Success` from `circuitbreaker.go`, symmetric to `Fail` on the
success fields. -/
def Counter.Success (c : Counter) (now : Int) : Counter × Nat :=
  let s0 := if now - c.lastSuccess > c.resetPeriod then 0 else c.success
  let s1 := (s0 + 1) % 2 ^ 32
  ({ c with success := s1, lastSuccess := now, failure := 0 }, s1)

/-- `Counter.Reset` from `circuitbreaker.go`: sets both timestamps to the
zero `time.Time{}` and both counters to `0` (sequential effect; the lock
handling of this method is modelled separately as an event trace). -/
def Counter.Reset (c : Counter) : Counter :=
  { c with failure := 0, success := 0, lastFail := 0, lastSuccess := 0 }

/-- The `State` struct from `state.go` (mutex dropped). -/
structure State where
  lastOpen : Int
  openPeriod : Int
  status : Status
deriving DecidableEq, Repr

/-- `NewState` from `state.go`: only `status` is set explicitly; `lastOpen`
and `openPeriod` are Go zero values. -/
def NewState : State :=
  { lastOpen := 0, openPeriod := 0, status := .StatusClosed }

/-- `State.Status` from `state.go`: if the stored status is `StatusOpen`
and `time.Since(s.lastOpen) > s.openPeriod`, the stored status is rewritten
to `StatusHalfOpen`; the (possibly rewritten) stored status is returned.
Returns the updated state together with the returned status. -/
def State.Status (s : State) (now : Int) : State × Status :=
  if s.status = .StatusOpen ∧ now - s.lastOpen > s.openPeriod then
    ({ s with status := .StatusHalfOpen }, .StatusHalfOpen)
  else
    (s, s.status)

/-- `State.Set` from `state.go`: if the new status is `StatusOpen`,
`lastOpen` is set to `time.Now()`; then the status is stored. -/
def State.Set (s : State) (status : CircuitBreakerGo.Status) (now : Int) : State :=
  { s with
    lastOpen := if status = .StatusOpen then now else s.lastOpen
    status := status }

/-- `State.Reset` from `state.go`: `status = StatusClosed` and
`lastOpen = time.Now().Add(-24 * time.Hour)`. -/
def State.Reset (s : State) (now : Int) : State :=
  { s with status := .StatusClosed, lastOpen := now - 24 * nsPerHour }

/-- `defaultOpenStatusPeriod = 1 * time.Minute` from `circuitbreaker.go`. -/
def defaultOpenStatusPeriod : Int := 1 * nsPerMinute

/-- `defaultSuccessThreshold = uint32(5)` from `circuitbreaker.go`. -/
def defaultSuccessThreshold : Nat := 5

/-- `defaultFailureThreshold = uint32(5)` from `circuitbreaker.go`. -/
def defaultFailureThreshold : Nat := 5

/-- `defaultCounterResetPeriod = 1 * time.Minute` from `circuitbreaker.go`. -/
def defaultCounterResetPeriod : Int := 1 * nsPerMinute

/-- The `CircuitBreaker` struct from `circuitbreaker.go` (mutex dropped;
the logger is an opaque handle). -/
structure CircuitBreaker where
  service : String
  counter : Counter
  state : State
  logger : Nat
  blocked : Bool
  failureThreshold : Nat
  successThreshold : Nat
deriving DecidableEq, Repr

/-- The `Option` functional-option type from `circuitbreaker.go`
(`func(*CircuitBreaker)`), modelled as a state transformer. -/
def CBOption := CircuitBreaker → CircuitBreaker

/-- `New` from `circuitbreaker.go`: builds the literal
`&CircuitBreaker{...}` (note: `counter` is the zero `&Counter{}` and
`state` is `NewState()`; the two declared default periods are not applied
anywhere) and then applies each option in order. -/
def New (service : String) (settings : List CBOption) : CircuitBreaker :=
  let cb : CircuitBreaker :=
    { service := service
      counter := Counter.new
      state := NewState
      logger := 0
      blocked := false
      failureThreshold := defaultFailureThreshold
      successThreshold := defaultSuccessThreshold }
  settings.foldl (fun cb opt => opt cb) cb

/-- `WithFailureThreshold` from `circuitbreaker.go`. -/
def WithFailureThreshold (t : Nat) : CBOption :=
  fun cb => { cb with failureThreshold := t }

/-- `WithSuccessThreshold` from `circuitbreaker.go`. -/
def WithSuccessThreshold (t : Nat) : CBOption :=
  fun cb => { cb with successThreshold := t }

/-- `WithCounterResetPeriod` from `circuitbreaker.go`. -/
def WithCounterResetPeriod (t : Int) : CBOption :=
  fun cb => { cb with counter := { cb.counter with resetPeriod := t } }

/-- `WithOpenPeriod` from `circuitbreaker.go`. -/
def WithOpenPeriod (t : Int) : CBOption :=
  fun cb => { cb with state := { cb.state with openPeriod := t } }

/-- `WithLogger` from `circuitbreaker.go`. -/
def WithLogger (l : Nat) : CBOption :=
  fun cb => { cb with logger := l }

/-- The breaker-level errors of `Exec`: `ErrBlocked`, `ErrRequestDisabled`,
or the wrapped operation's own error passed through (`E` is the opaque
error payload of the operation). -/
inductive ExecError (E : Type) where
  | ErrBlocked
  | ErrRequestDisabled
  | OpError (e : E)
deriving DecidableEq, Repr

/-- Return shape of `Exec`: the updated breaker, the `interface{}` result
(`none` models Go `nil`), the `error` (`none` models Go `nil`), and an
instrumentation flag recording whether the branch taken invoked the
wrapped operation `fn()`. -/
structure ExecResult (A E : Type) where
  cb : CircuitBreaker
  res : Option A
  err : Option (ExecError E)
  invoked : Bool
deriving DecidableEq, Repr

/-- `handleError` from `circuitbreaker.go` (its `err` argument is consumed
only by the logger and is omitted):
`failed := cb.counter.Fail()`;
`if failed > cb.failureThreshold || cb.state.Status() == StatusHalfOpen`
then `cb.state.Set(StatusOpen)`.  The short-circuit of `||` is kept: the
second `Status()` read (with its possible lazy promotion) happens only if
the count did not cross the threshold. -/
def handleError (cb : CircuitBreaker) (now : Int) : CircuitBreaker :=
  let p := cb.counter.Fail now
  let cb := { cb with counter := p.1 }
  if p.2 > cb.failureThreshold then
    { cb with state := cb.state.Set .StatusOpen now }
  else
    let q := cb.state.Status now
    let cb := { cb with state := q.1 }
    if q.2 = .StatusHalfOpen then
      { cb with state := cb.state.Set .StatusOpen now }
    else
      cb

/-- `Exec` from `circuitbreaker.go`.  The single invocation `fn()` of the
wrapped operation is modelled by passing its outcome `o : Except E A`;
the `invoked` flag records whether the branch taken performs that call. -/
def Exec {A E : Type} (cb : CircuitBreaker) (o : Except E A) (now : Int) :
    ExecResult A E :=
  if cb.blocked then
    { cb := cb, res := none, err := some .ErrBlocked, invoked := false }
  else
    let q := cb.state.Status now
    let cb := { cb with state := q.1 }
    match q.2 with
    | .StatusClosed =>
      match o with
      | .error e =>
        { cb := handleError cb now, res := none, err := some (.OpError e),
          invoked := true }
      | .ok a =>
        let p := cb.counter.Success now
        { cb := { cb with counter := p.1 }, res := some a, err := none,
          invoked := true }
    | .StatusHalfOpen =>
      match o with
      | .error e =>
        { cb := handleError cb now, res := none, err := some (.OpError e),
          invoked := true }
      | .ok a =>
        let p := cb.counter.Success now
        let cb := { cb with counter := p.1 }
        if p.2 > cb.successThreshold then
          { cb := { cb with state := cb.state.Set .StatusClosed now },
            res := some a, err := none, invoked := true }
        else
          { cb := cb, res := some a, err := none, invoked := true }
    | .StatusOpen =>
      { cb := cb, res := none, err := some .ErrRequestDisabled, invoked := false }

/-- `CircuitBreaker.Reset` from `circuitbreaker.go`:
`cb.counter.Reset(); cb.state.Reset(); cb.Unblock()`. -/
def CircuitBreaker.Reset (cb : CircuitBreaker) (now : Int) : CircuitBreaker :=
  { cb with
    counter := cb.counter.Reset
    state := cb.state.Reset now
    blocked := false }

/-- `CircuitBreaker.Block` from `circuitbreaker.go`. -/
def CircuitBreaker.Block (cb : CircuitBreaker) : CircuitBreaker :=
  { cb with blocked := true }

/-- `CircuitBreaker.Unblock` from `circuitbreaker.go`. -/
def CircuitBreaker.Unblock (cb : CircuitBreaker) : CircuitBreaker :=
  { cb with blocked := false }

/-! ### Lock-discipline traces of the `Counter` methods

Each `Counter` method is additionally transcribed as the ordered list of
mutex events and field mutations its body performs, read directly off the
Go statements (a `defer c.Unlock()` places the unlock event at the end of
the body; a plain `c.Unlock()` places it where the statement occurs). -/

/-- A primitive event inside a `Counter` method body: acquiring the mutex,
releasing it, or mutating a field of the counter. -/
inductive MutexEvent where
  | lock
  | unlock
  | write
deriving DecidableEq, Repr

/-- Event trace of `Counter.Fail`: `c.Lock()`, `defer c.Unlock()` (so the
unlock fires after the body), conditional write of `c.failure`, writes of
`c.lastFail`, `c.failure`, `c.success`. -/
def counterFailTrace : List MutexEvent :=
  [.lock, .write, .write, .write, .write, .unlock]

/-- Event trace of `Counter.Success`: same shape as `Counter.Fail` on the
success fields. -/
def counterSuccessTrace : List MutexEvent :=
  [.lock, .write, .write, .write, .write, .unlock]

/-- Event trace of `Counter.Reset`: the body is `c.Lock()` immediately
followed by `c.Unlock()` (no `defer`), and only then the four field
writes. -/
def counterResetTrace : List MutexEvent :=
  [.lock, .unlock, .write, .write, .write, .write]

/-- `guarded held tr` holds when every `write` in the trace `tr` happens
while the mutex is held (`held` is the lock state on entry). -/
def guarded : Bool → List MutexEvent → Bool
  | _, [] => true
  | _, .lock :: tr => guarded true tr
  | _, .unlock :: tr => guarded false tr
  | held, .write :: tr => held && guarded held tr

/-! ### Operation sequences on a `Counter` -/

/-- One call to a `Counter` method at a given instant. -/
inductive CounterOp where
  | fail (now : Int)
  | succ (now : Int)
  | reset
deriving DecidableEq, Repr

/-- Apply one `CounterOp` to a counter (dropping the returned count). -/
def Counter.apply (c : Counter) : CounterOp → Counter
  | .fail now => (c.Fail now).1
  | .succ now => (c.Success now).1
  | .reset => c.Reset

/-- Apply a sequence of `Counter` method calls, oldest first. -/
def Counter.applyAll (c : Counter) (ops : List CounterOp) : Counter :=
  ops.foldl Counter.apply c

/-- At most one of the two streak counters is nonzero. -/
def Counter.mutexFree (c : Counter) : Prop :=
  c.failure = 0 ∨ c.success = 0

instance (c : Counter) : Decidable c.mutexFree := by
  unfold Counter.mutexFree; infer_instance

/-! ### Iterated `Exec` calls with a constant outcome -/

/-- `execFails e now cb k`: the breaker after `k` consecutive
`Exec (.error e)` calls, all at instant `now`. -/
def execFails {E : Type} (e : E) (now : Int) (cb : CircuitBreaker) :
    Nat → CircuitBreaker
  | 0 => cb
  | k + 1 => (Exec (A := Unit) (execFails e now cb k) (.error e) now).cb

/-- `execSuccs a now cb k`: the breaker after `k` consecutive
`Exec (.ok a)` calls, all at instant `now`. -/
def execSuccs {A : Type} (a : A) (now : Int) (cb : CircuitBreaker) :
    Nat → CircuitBreaker
  | 0 => cb
  | k + 1 => (Exec (E := Unit) (execSuccs a now cb k) (.ok a) now).cb

/-! ### Helper lemmas -/

/-- A `Status()` read on a state whose stored status is not `Open` changes
nothing and returns the stored status. -/
lemma State.Status_of_ne_open (s : State) (now : Int)
    (h : s.status ≠ .StatusOpen) : s.Status now = (s, s.status) := by
  unfold State.Status
  rw [if_neg]
  rintro ⟨h1, -⟩
  exact h h1

/-- After a `Status()` read, the stored status equals the returned status
(the lazy promotion is memoized). -/
lemma State.status_Status_fst (s : State) (now : Int) :
    ((s.Status now).1).status = (s.Status now).2 := by
  unfold State.Status
  split <;> rfl

/-- A `Status()` read never changes `lastOpen` or `openPeriod`. -/
lemma State.Status_fst_frame (s : State) (now : Int) :
    ((s.Status now).1).lastOpen = s.lastOpen ∧
    ((s.Status now).1).openPeriod = s.openPeriod := by
  unfold State.Status
  split <;> exact ⟨rfl, rfl⟩

/-- `Set StatusOpen` stores `Open` and stamps `lastOpen = now`. -/
lemma State.Set_open_eq (s : State) (now : Int) :
    s.Set .StatusOpen now =
      { s with status := .StatusOpen, lastOpen := now } := by
  unfold State.Set
  rfl

/-- `Fail` under a non-negative reset period, when the stored count is `k`
and either no failure has been recorded in this streak (`k = 0`) or the
last one was at `now`: no decay is observable and the count becomes
`k + 1`. -/
lemma Fail_count_of_inv (c : Counter) (now : Int) (k : Nat)
    (hf : c.failure = k) (hrp : 0 ≤ c.resetPeriod)
    (hlf : k = 0 ∨ c.lastFail = now) (hk : k + 1 < 2 ^ 32) :
    c.Fail now =
      ({ c with failure := k + 1, lastFail := now, success := 0 }, k + 1) := by
  have h0 : (if now - c.lastFail > c.resetPeriod then 0 else c.failure) = k := by
    rcases hlf with h | h
    · rw [hf, h, ite_self]
    · rw [h, sub_self, if_neg (not_lt.mpr hrp), hf]
  simp only [Counter.Fail]
  rw [h0, Nat.mod_eq_of_lt hk]

/-- Symmetric to `Fail_count_of_inv` for `Success`. -/
lemma Success_count_of_inv (c : Counter) (now : Int) (k : Nat)
    (hs : c.success = k) (hrp : 0 ≤ c.resetPeriod)
    (hls : k = 0 ∨ c.lastSuccess = now) (hk : k + 1 < 2 ^ 32) :
    c.Success now =
      ({ c with success := k + 1, lastSuccess := now, failure := 0 }, k + 1) := by
  have h0 : (if now - c.lastSuccess > c.resetPeriod then 0 else c.success) = k := by
    rcases hls with h | h
    · rw [hs, h, ite_self]
    · rw [h, sub_self, if_neg (not_lt.mpr hrp), hs]
  simp only [Counter.Success]
  rw [h0, Nat.mod_eq_of_lt hk]

/-- `handleError` when the failure count crosses the threshold: the state
is set to `Open`. -/
lemma handleError_gt (cb : CircuitBreaker) (now : Int)
    (hgt : (cb.counter.Fail now).2 > cb.failureThreshold) :
    handleError cb now =
      { cb with counter := (cb.counter.Fail now).1,
                state := cb.state.Set .StatusOpen now } := by
  simp only [handleError]
  rw [if_pos hgt]

/-- `handleError` on a breaker whose stored status is `Closed`, when the
failure count does not cross the threshold: only the counter changes. -/
lemma handleError_closed_le (cb : CircuitBreaker) (now : Int)
    (hst : cb.state.status = .StatusClosed)
    (hle : ¬ (cb.counter.Fail now).2 > cb.failureThreshold) :
    handleError cb now = { cb with counter := (cb.counter.Fail now).1 } := by
  simp only [handleError]
  rw [if_neg hle,
    State.Status_of_ne_open _ now (by rw [hst]; intro h; cases h)]
  rw [if_neg (by rw [hst]; intro h; cases h)]

/-- `handleError` on a breaker whose stored status is `HalfOpen`: the
state is set to `Open` regardless of the count. -/
lemma handleError_halfOpen (cb : CircuitBreaker) (now : Int)
    (hst : cb.state.status = .StatusHalfOpen) :
    handleError cb now =
      { cb with counter := (cb.counter.Fail now).1,
                state := cb.state.Set .StatusOpen now } := by
  by_cases hgt : (cb.counter.Fail now).2 > cb.failureThreshold
  · exact handleError_gt cb now hgt
  · simp only [handleError]
    rw [if_neg hgt,
      State.Status_of_ne_open _ now (by rw [hst]; intro h; cases h)]
    rw [if_pos hst]

/-- `Exec` with the manual-block flag set: nothing runs, nothing is
recorded, the result is the `Blocked` error. -/
lemma Exec_blocked {A E : Type} (cb : CircuitBreaker) (o : Except E A)
    (now : Int) (hb : cb.blocked = true) :
    Exec cb o now =
      { cb := cb, res := none, err := some .ErrBlocked, invoked := false } := by
  simp only [Exec, hb, if_true]

/-- `Exec` when not blocked and the effective status is `Open`: the
operation is not invoked and the `RequestDisabled` error is returned. -/
lemma Exec_open_status {A E : Type} (cb : CircuitBreaker) (o : Except E A)
    (now : Int) (hb : cb.blocked = false)
    (hq : (cb.state.Status now).2 = .StatusOpen) :
    Exec cb o now =
      { cb := { cb with state := (cb.state.Status now).1 }, res := none,
        err := some .ErrRequestDisabled, invoked := false } := by
  simp only [Exec, hb, Bool.false_eq_true, if_false, hq]

/-- `Exec` when not blocked, with effective status `Closed` or `HalfOpen`,
on a failing operation: `handleError` runs and the operation's own error
is passed through. -/
lemma Exec_error_run {A E : Type} (cb : CircuitBreaker) (e : E)
    (now : Int) (hb : cb.blocked = false)
    (hq : (cb.state.Status now).2 ≠ .StatusOpen) :
    Exec (A := A) cb (.error e) now =
      { cb := handleError { cb with state := (cb.state.Status now).1 } now,
        res := none, err := some (.OpError e), invoked := true } := by
  rcases h : (cb.state.Status now).2 with _ | _ | _
  · simp only [Exec, hb, Bool.false_eq_true, if_false, h]
  · exact absurd h hq
  · simp only [Exec, hb, Bool.false_eq_true, if_false, h]

/-- `Exec` when not blocked, with effective status `Closed`, on a
successful operation: the success is recorded and the result returned. -/
lemma Exec_ok_closed {A E : Type} (cb : CircuitBreaker) (a : A)
    (now : Int) (hb : cb.blocked = false)
    (hq : (cb.state.Status now).2 = .StatusClosed) :
    Exec (E := E) cb (.ok a) now =
      { cb := { cb with state := (cb.state.Status now).1,
                        counter := (cb.counter.Success now).1 },
        res := some a, err := none, invoked := true } := by
  simp only [Exec, hb, Bool.false_eq_true, if_false, hq]

/-- `Exec` when not blocked, with effective status `HalfOpen`, on a
successful operation that does not cross the success threshold: only the
counter changes. -/
lemma Exec_ok_halfOpen_le {A E : Type} (cb : CircuitBreaker) (a : A)
    (now : Int) (hb : cb.blocked = false)
    (hq : (cb.state.Status now).2 = .StatusHalfOpen)
    (hle : ¬ (cb.counter.Success now).2 > cb.successThreshold) :
    Exec (E := E) cb (.ok a) now =
      { cb := { cb with state := (cb.state.Status now).1,
                        counter := (cb.counter.Success now).1 },
        res := some a, err := none, invoked := true } := by
  simp only [Exec, hb, Bool.false_eq_true, if_false, hq]
  rw [if_neg hle]

/-- `Exec` when not blocked, with effective status `HalfOpen`, on a
successful operation that crosses the success threshold: the state is set
to `Closed`. -/
lemma Exec_ok_halfOpen_gt {A E : Type} (cb : CircuitBreaker) (a : A)
    (now : Int) (hb : cb.blocked = false)
    (hq : (cb.state.Status now).2 = .StatusHalfOpen)
    (hgt : (cb.counter.Success now).2 > cb.successThreshold) :
    Exec (E := E) cb (.ok a) now =
      { cb := { cb with counter := (cb.counter.Success now).1,
                        state := ((cb.state.Status now).1).Set .StatusClosed now },
        res := some a, err := none, invoked := true } := by
  simp only [Exec, hb, Bool.false_eq_true, if_false, hq]
  rw [if_pos hgt]

/-- Field view of a successful run: when not blocked and the effective
status allows traffic, `Exec` on a succeeding operation returns the
result with a `nil` error. -/
lemma Exec_ok_run_fields {A E : Type} (cb : CircuitBreaker) (a : A)
    (now : Int) (hb : cb.blocked = false)
    (hq : (cb.state.Status now).2 ≠ .StatusOpen) :
    (Exec (E := E) cb (.ok a) now).err = none ∧
    (Exec (E := E) cb (.ok a) now).res = some a ∧
    (Exec (E := E) cb (.ok a) now).invoked = true := by
  rcases h : (cb.state.Status now).2 with _ | _ | _
  · rw [Exec_ok_closed cb a now hb h]
    exact ⟨rfl, rfl, rfl⟩
  · exact absurd h hq
  · by_cases hgt : (cb.counter.Success now).2 > cb.successThreshold
    · rw [Exec_ok_halfOpen_gt cb a now hb h hgt]
      exact ⟨rfl, rfl, rfl⟩
    · rw [Exec_ok_halfOpen_le cb a now hb h hgt]
      exact ⟨rfl, rfl, rfl⟩

end CircuitBreakerGo

namespace CircuitBreakerGo

/-! ### Claim theorems -/

/-- C1: the claim asserts that `New(service)` with no options yields
failure threshold 5, success threshold 5, open-state duration 1 minute and
counter-decay period 1 minute.  The thresholds are 5, but `New` leaves
`state.openPeriod` and `counter.resetPeriod` at the Go zero value `0`:
the declared one-minute defaults `defaultOpenStatusPeriod` and
`defaultCounterResetPeriod` are never applied, so the constructed breaker
disagrees with them. -/
theorem new_ignores_declared_default_periods :
    (New "svc" []).failureThreshold = 5 ∧
    (New "svc" []).successThreshold = 5 ∧
    (New "svc" []).state.openPeriod = 0 ∧
    (New "svc" []).counter.resetPeriod = 0 ∧
    defaultOpenStatusPeriod = nsPerMinute ∧
    defaultCounterResetPeriod = nsPerMinute ∧
    (0 : Int) ≠ nsPerMinute := by
  refine ⟨rfl, rfl, rfl, rfl, rfl, rfl, ?_⟩
  decide

/-- C2: with the manual-block flag clear and effective status `HalfOpen`,
`Exec` on a failing operation transitions the state to `Open` after that
single failure — whatever the current failure count and the two
thresholds are — stamps `lastOpen = now`, and returns the operation's own
failure to the caller. -/
theorem halfOpen_failure_opens {A E : Type} (cb : CircuitBreaker) (e : E)
    (now : Int) (hb : cb.blocked = false)
    (hs : (cb.state.Status now).2 = .StatusHalfOpen) :
    (Exec (A := A) cb (.error e) now).cb.state.status = .StatusOpen ∧
    (Exec (A := A) cb (.error e) now).cb.state.lastOpen = now ∧
    (Exec (A := A) cb (.error e) now).err = some (.OpError e) ∧
    (Exec (A := A) cb (.error e) now).res = none := by
  have h1 : ((cb.state.Status now).1).status = .StatusHalfOpen := by
    rw [State.status_Status_fst, hs]
  rw [Exec_error_run (A := A) cb e now hb (by rw [hs]; intro h; cases h)]
  rw [handleError_halfOpen { cb with state := (cb.state.Status now).1 } now h1]
  exact ⟨rfl, rfl, rfl, rfl⟩

/-- C2 witness: a concrete breaker with stored status `HalfOpen`, failure
count `0` and thresholds `5` is opened by a single failing call. -/
theorem halfOpen_failure_opens_witness :
    let cb : CircuitBreaker :=
      { service := "svc", counter := Counter.new,
        state := { lastOpen := 0, openPeriod := 5, status := .StatusHalfOpen },
        logger := 0, blocked := false,
        failureThreshold := 5, successThreshold := 5 }
    cb.blocked = false ∧ (cb.state.Status 0).2 = .StatusHalfOpen ∧
    (Exec (A := Unit) cb (.error ()) 0).cb.state.status = .StatusOpen ∧
    (Exec (A := Unit) cb (.error ()) 0).err = some (.OpError ()) := by
  intro cb
  refine ⟨rfl, by decide, ?_, ?_⟩
  · exact (halfOpen_failure_opens cb () 0 rfl (by decide)).1
  · exact (halfOpen_failure_opens cb () 0 rfl (by decide)).2.2.1

/-- C5: `Exec`'s error cases and their precedence: the `Blocked` error is
returned exactly when the manual-block flag is set (with the breaker left
untouched and the operation not invoked); otherwise `RequestDisabled` is
returned exactly when the effective status is `Open` (operation not
invoked); otherwise the operation is invoked and its own failure, if any,
is passed through unchanged; the returned error is `nil` exactly when the
operation was invoked and succeeded. -/
theorem exec_error_taxonomy {A E : Type} (cb : CircuitBreaker)
    (o : Except E A) (now : Int) :
    ((Exec cb o now).err = some .ErrBlocked ↔ cb.blocked = true) ∧
    (cb.blocked = true →
      (Exec cb o now).cb = cb ∧ (Exec cb o now).invoked = false) ∧
    (cb.blocked = false →
      (((Exec cb o now).err = some .ErrRequestDisabled ↔
          (cb.state.Status now).2 = .StatusOpen) ∧
       ((cb.state.Status now).2 = .StatusOpen →
          (Exec cb o now).invoked = false) ∧
       ((cb.state.Status now).2 ≠ .StatusOpen →
          (Exec cb o now).invoked = true ∧
          (∀ e, o = .error e → (Exec cb o now).err = some (.OpError e)) ∧
          (∀ a, o = .ok a →
            (Exec cb o now).err = none ∧ (Exec cb o now).res = some a)))) ∧
    ((Exec cb o now).err = none ↔
      ((Exec cb o now).invoked = true ∧ ∃ a, o = .ok a)) := by
  by_cases hb : cb.blocked
  · rw [Exec_blocked cb o now hb]
    refine ⟨by simp [hb], fun _ => ⟨rfl, rfl⟩,
      fun h => absurd hb (by rw [h]; simp), by simp⟩
  · have hb' : cb.blocked = false := by simpa using hb
    by_cases hq : (cb.state.Status now).2 = .StatusOpen
    · rw [Exec_open_status cb o now hb' hq]
      refine ⟨by simp [hb'], fun h => absurd h (by simp [hb']),
        fun _ => ⟨by simp [hq], fun _ => rfl, fun hne => absurd hq hne⟩,
        by simp⟩
    · rcases o with e | a
      · rw [Exec_error_run cb e now hb' hq]
        refine ⟨by simp [hb'], fun h => absurd h (by simp [hb']),
          fun _ => ⟨by simp [hq], fun h => absurd h hq,
            fun _ => ⟨rfl, ?_, ?_⟩⟩,
          by simp⟩
        · intro e' he
          obtain rfl : e = e' := by injection he
          rfl
        · intro a ha
          cases ha
      · obtain ⟨he, hr, hi⟩ := Exec_ok_run_fields cb a now hb' hq
        have c1 : (Exec (E := E) cb (.ok a) now).err = some .ErrBlocked ↔
            cb.blocked = true := by
          rw [he]; simp [hb']
        have c2 : cb.blocked = true →
            (Exec (E := E) cb (.ok a) now).cb = cb ∧
            (Exec (E := E) cb (.ok a) now).invoked = false :=
          fun h => absurd h (by simp [hb'])
        have c3a : (Exec (E := E) cb (.ok a) now).err = some .ErrRequestDisabled ↔
            (cb.state.Status now).2 = .StatusOpen := by
          rw [he]; simp [hq]
        have c4 : (Exec (E := E) cb (.ok a) now).err = none ↔
            ((Exec (E := E) cb (.ok a) now).invoked = true ∧
              ∃ a' : A, (Except.ok a : Except E A) = Except.ok a') := by
          rw [he]
          exact ⟨fun _ => ⟨hi, a, rfl⟩, fun _ => rfl⟩
        refine ⟨c1, c2, fun _ => ⟨c3a, fun h => absurd h hq,
          fun _ => ⟨hi, ?_, ?_⟩⟩, c4⟩
        · intro e hcon
          cases hcon
        · intro a' ha'
          obtain rfl : a = a' := by injection ha'
          exact ⟨he, hr⟩

/-- C5 witness: on a concrete blocked breaker `Exec` returns the
`Blocked` error without touching the breaker; on the same breaker
unblocked (status `Closed`) a succeeding call returns a `nil` error. -/
theorem exec_error_taxonomy_witness :
    let cbB : CircuitBreaker :=
      { service := "svc", counter := Counter.new, state := NewState,
        logger := 0, blocked := true,
        failureThreshold := 5, successThreshold := 5 }
    let cbU : CircuitBreaker := { cbB with blocked := false }
    ((Exec (A := Unit) (E := Unit) cbB (.ok ()) 7).err = some .ErrBlocked ∧
     (Exec (A := Unit) (E := Unit) cbB (.ok ()) 7).cb = cbB) ∧
    (Exec (A := Unit) (E := Unit) cbU (.ok ()) 7).err = none := by
  intro cbB cbU
  refine ⟨⟨?_, ?_⟩, ?_⟩
  · exact (exec_error_taxonomy cbB (.ok ()) 7).1.mpr rfl
  · exact ((exec_error_taxonomy cbB (.ok ()) 7).2.1 rfl).1
  · exact ((exec_error_taxonomy cbU (.ok ()) 7).2.2.2).mpr
      ⟨(((exec_error_taxonomy cbU (.ok ()) 7).2.2.1 rfl).2.2
          (by decide)).1, (), rfl⟩

/-- C3: with stored status `Open`, `Status()` returns `Open` (and leaves
the state untouched) while `now − lastOpen ≤ openPeriod`, and once
`now − lastOpen > openPeriod` it returns `HalfOpen`, rewrites the stored
status to `HalfOpen`, and every subsequent read (at any instant, with no
intervening `Set`) returns `HalfOpen` without recomputing the time
check. -/
theorem open_status_lazy_promotion (s : State) (now : Int)
    (hs : s.status = .StatusOpen) :
    (now - s.lastOpen ≤ s.openPeriod → s.Status now = (s, .StatusOpen)) ∧
    (now - s.lastOpen > s.openPeriod →
      (s.Status now).2 = .StatusHalfOpen ∧
      ((s.Status now).1).status = .StatusHalfOpen ∧
      ∀ later : Int, ((s.Status now).1).Status later =
        ((s.Status now).1, .StatusHalfOpen)) := by
  constructor
  · intro hle
    unfold State.Status
    rw [if_neg, hs]
    rintro ⟨-, h2⟩
    exact absurd hle (not_le.mpr h2)
  · intro hgt
    have hst : s.Status now =
        ({ s with status := .StatusHalfOpen }, .StatusHalfOpen) := by
      unfold State.Status
      rw [if_pos ⟨hs, hgt⟩]
    refine ⟨by rw [hst], by rw [hst], fun later => ?_⟩
    rw [hst]
    exact State.Status_of_ne_open _ later (by intro h; cases h)

/-- C3 witness: with `lastOpen = 0` and `openPeriod = 5`, a read at
`now = 3` returns `Open` unchanged and a read at `now = 6` promotes to
`HalfOpen`, memoizing the promotion for a later read at `now = 100`. -/
theorem open_status_lazy_promotion_witness :
    let s : State := { lastOpen := 0, openPeriod := 5, status := .StatusOpen }
    s.status = .StatusOpen ∧
    s.Status 3 = (s, .StatusOpen) ∧
    (s.Status 6).2 = .StatusHalfOpen ∧
    ((s.Status 6).1).Status 100 = ((s.Status 6).1, .StatusHalfOpen) := by
  refine ⟨rfl, ?_, ?_, ?_⟩
  · exact (open_status_lazy_promotion _ 3 rfl).1 (by decide)
  · exact ((open_status_lazy_promotion _ 6 rfl).2 (by decide)).1
  · exact ((open_status_lazy_promotion _ 6 rfl).2 (by decide)).2.2 100

/-- Invariant of repeated failing `Exec` calls from `Closed` with a
non-negative decay period and all calls at the same instant: the state is
untouched and the failure streak counts the calls, as long as the count
stays at or below the threshold. -/
lemma execFails_closed_inv {E : Type} (e : E) (now : Int)
    (cb : CircuitBreaker) (hb : cb.blocked = false)
    (hst : cb.state.status = .StatusClosed)
    (hf : cb.counter.failure = 0) (hrp : 0 ≤ cb.counter.resetPeriod)
    (hN : cb.failureThreshold + 1 < 2 ^ 32) :
    ∀ k, k ≤ cb.failureThreshold →
      (execFails e now cb k).blocked = false ∧
      (execFails e now cb k).state = cb.state ∧
      (execFails e now cb k).failureThreshold = cb.failureThreshold ∧
      (execFails e now cb k).counter.resetPeriod = cb.counter.resetPeriod ∧
      (execFails e now cb k).counter.failure = k ∧
      (k = 0 ∨ (execFails e now cb k).counter.lastFail = now) := by
  intro k
  induction k with
  | zero => exact fun _ => ⟨hb, rfl, rfl, rfl, hf, Or.inl rfl⟩
  | succ k ih =>
    intro hk1
    obtain ⟨ib, is, ith, irp, ifl, ilf⟩ := ih (Nat.le_of_succ_le hk1)
    set cbk := execFails e now cb k with hcbk
    have hfail : cbk.counter.Fail now =
        ({ cbk.counter with failure := k + 1, lastFail := now, success := 0 },
          k + 1) :=
      Fail_count_of_inv cbk.counter now k ifl (by rw [irp]; exact hrp) ilf
        (lt_trans (Nat.lt_succ_of_le hk1) hN)
    have hle : ¬ (cbk.counter.Fail now).2 > cbk.failureThreshold := by
      rw [hfail, ith]
      exact not_lt.mpr hk1
    have hq2 : (cbk.state.Status now).2 = .StatusClosed := by
      rw [is, State.Status_of_ne_open cb.state now (by rw [hst]; intro h; cases h)]
      exact hst
    have hq1 : (cbk.state.Status now).1 = cbk.state := by
      rw [is, State.Status_of_ne_open cb.state now (by rw [hst]; intro h; cases h)]
    have hnext : execFails e now cb (k + 1) =
        { cbk with counter := (cbk.counter.Fail now).1 } := by
      show (Exec (A := Unit) cbk (.error e) now).cb = _
      rw [Exec_error_run cbk e now ib (by rw [hq2]; intro h; cases h), hq1]
      show handleError cbk now = _
      exact handleError_closed_le cbk now (by rw [is]; exact hst) hle
    have hfail1 : (cbk.counter.Fail now).1 =
        { cbk.counter with failure := k + 1, lastFail := now, success := 0 } := by
      rw [hfail]
    refine ⟨by rw [hnext]; exact ib, by rw [hnext]; exact is,
      by rw [hnext]; exact ith, by rw [hnext, hfail1]; exact irp,
      by rw [hnext, hfail1], Or.inr (by rw [hnext, hfail1])⟩

/-- Invariant of repeated succeeding `Exec` calls from `HalfOpen` with a
non-negative decay period and all calls at the same instant: the state is
untouched and the success streak counts the calls, as long as the count
stays at or below the threshold. -/
lemma execSuccs_halfOpen_inv {A : Type} (a : A) (now : Int)
    (cb : CircuitBreaker) (hb : cb.blocked = false)
    (hst : cb.state.status = .StatusHalfOpen)
    (hs0 : cb.counter.success = 0) (hrp : 0 ≤ cb.counter.resetPeriod)
    (hM : cb.successThreshold + 1 < 2 ^ 32) :
    ∀ k, k ≤ cb.successThreshold →
      (execSuccs a now cb k).blocked = false ∧
      (execSuccs a now cb k).state = cb.state ∧
      (execSuccs a now cb k).successThreshold = cb.successThreshold ∧
      (execSuccs a now cb k).counter.resetPeriod = cb.counter.resetPeriod ∧
      (execSuccs a now cb k).counter.success = k ∧
      (k = 0 ∨ (execSuccs a now cb k).counter.lastSuccess = now) := by
  intro k
  induction k with
  | zero => exact fun _ => ⟨hb, rfl, rfl, rfl, hs0, Or.inl rfl⟩
  | succ k ih =>
    intro hk1
    obtain ⟨ib, is, ith, irp, isc, ils⟩ := ih (Nat.le_of_succ_le hk1)
    set cbk := execSuccs a now cb k with hcbk
    have hsucc : cbk.counter.Success now =
        ({ cbk.counter with success := k + 1, lastSuccess := now, failure := 0 },
          k + 1) :=
      Success_count_of_inv cbk.counter now k isc (by rw [irp]; exact hrp) ils
        (lt_trans (Nat.lt_succ_of_le hk1) hM)
    have hle : ¬ (cbk.counter.Success now).2 > cbk.successThreshold := by
      rw [hsucc, ith]
      exact not_lt.mpr hk1
    have hq2 : (cbk.state.Status now).2 = .StatusHalfOpen := by
      rw [is, State.Status_of_ne_open cb.state now (by rw [hst]; intro h; cases h)]
      exact hst
    have hq1 : (cbk.state.Status now).1 = cbk.state := by
      rw [is, State.Status_of_ne_open cb.state now (by rw [hst]; intro h; cases h)]
    have hnext : execSuccs a now cb (k + 1) =
        { cbk with counter := (cbk.counter.Success now).1 } := by
      show (Exec (E := Unit) cbk (.ok a) now).cb = _
      rw [Exec_ok_halfOpen_le cbk a now ib hq2 hle, hq1]
    have hsucc1 : (cbk.counter.Success now).1 =
        { cbk.counter with success := k + 1, lastSuccess := now, failure := 0 } := by
      rw [hsucc]
    refine ⟨by rw [hnext]; exact ib, by rw [hnext]; exact is,
      by rw [hnext]; exact ith, by rw [hnext, hsucc1]; exact irp,
      by rw [hnext, hsucc1], Or.inr (by rw [hnext, hsucc1])⟩

/-- C4: both threshold checks use the strict `count > threshold`
convention.  From `Closed` with `failureThreshold = N` and no decay in
between (same instant, non-negative decay period, counts fitting in 32
bits), the first `N` consecutive failing calls leave the status `Closed`
and the `(N+1)`-th opens the breaker; symmetrically, from `HalfOpen` with
`successThreshold = M`, the first `M` consecutive succeeding calls leave
the status `HalfOpen` and the `(M+1)`-th closes it. -/
theorem threshold_strict_boundaries {E A : Type} (e : E) (a : A)
    (now : Int) (cb : CircuitBreaker) :
    (cb.blocked = false → cb.state.status = .StatusClosed →
      cb.counter.failure = 0 → 0 ≤ cb.counter.resetPeriod →
      cb.failureThreshold + 1 < 2 ^ 32 →
      ((∀ k, k ≤ cb.failureThreshold →
          (execFails e now cb k).state.status = .StatusClosed) ∧
        (execFails e now cb (cb.failureThreshold + 1)).state.status =
          .StatusOpen)) ∧
    (cb.blocked = false → cb.state.status = .StatusHalfOpen →
      cb.counter.success = 0 → 0 ≤ cb.counter.resetPeriod →
      cb.successThreshold + 1 < 2 ^ 32 →
      ((∀ k, k ≤ cb.successThreshold →
          (execSuccs a now cb k).state.status = .StatusHalfOpen) ∧
        (execSuccs a now cb (cb.successThreshold + 1)).state.status =
          .StatusClosed)) := by
  constructor
  · intro hb hst hf hrp hN
    have inv := execFails_closed_inv e now cb hb hst hf hrp hN
    refine ⟨fun k hk => by rw [(inv k hk).2.1]; exact hst, ?_⟩
    obtain ⟨ib, is, ith, irp, ifl, ilf⟩ := inv cb.failureThreshold le_rfl
    set cbk := execFails e now cb cb.failureThreshold with hcbk
    have hfail : cbk.counter.Fail now =
        ({ cbk.counter with
            failure := cb.failureThreshold + 1, lastFail := now,
            success := 0 },
          cb.failureThreshold + 1) :=
      Fail_count_of_inv cbk.counter now cb.failureThreshold ifl
        (by rw [irp]; exact hrp) ilf hN
    have hgt : (cbk.counter.Fail now).2 > cbk.failureThreshold := by
      rw [hfail, ith]
      exact Nat.lt_succ_self _
    have hq2 : (cbk.state.Status now).2 = .StatusClosed := by
      rw [is, State.Status_of_ne_open cb.state now (by rw [hst]; intro h; cases h)]
      exact hst
    have hq1 : (cbk.state.Status now).1 = cbk.state := by
      rw [is, State.Status_of_ne_open cb.state now (by rw [hst]; intro h; cases h)]
    show (Exec (A := Unit) cbk (.error e) now).cb.state.status = .StatusOpen
    rw [Exec_error_run cbk e now ib (by rw [hq2]; intro h; cases h), hq1]
    show (handleError cbk now).state.status = .StatusOpen
    rw [handleError_gt cbk now hgt]
    rfl
  · intro hb hst hs0 hrp hM
    have inv := execSuccs_halfOpen_inv a now cb hb hst hs0 hrp hM
    refine ⟨fun k hk => by rw [(inv k hk).2.1]; exact hst, ?_⟩
    obtain ⟨ib, is, ith, irp, isc, ils⟩ := inv cb.successThreshold le_rfl
    set cbk := execSuccs a now cb cb.successThreshold with hcbk
    have hsucc : cbk.counter.Success now =
        ({ cbk.counter with
            success := cb.successThreshold + 1, lastSuccess := now,
            failure := 0 },
          cb.successThreshold + 1) :=
      Success_count_of_inv cbk.counter now cb.successThreshold isc
        (by rw [irp]; exact hrp) ils hM
    have hgt : (cbk.counter.Success now).2 > cbk.successThreshold := by
      rw [hsucc, ith]
      exact Nat.lt_succ_self _
    have hq2 : (cbk.state.Status now).2 = .StatusHalfOpen := by
      rw [is, State.Status_of_ne_open cb.state now (by rw [hst]; intro h; cases h)]
      exact hst
    show (Exec (E := Unit) cbk (.ok a) now).cb.state.status = .StatusClosed
    rw [Exec_ok_halfOpen_gt cbk a now ib hq2 hgt]
    rfl

/-- C4 witness: with both thresholds set to 2, three failing calls from
`Closed` open the breaker while the first two leave it `Closed`, and
three succeeding calls from `HalfOpen` close it while the first two leave
it `HalfOpen`. -/
theorem threshold_strict_boundaries_witness :
    let cbF : CircuitBreaker :=
      { service := "svc", counter := { Counter.new with resetPeriod := 100 },
        state := NewState, logger := 0, blocked := false,
        failureThreshold := 2, successThreshold := 2 }
    let cbS : CircuitBreaker :=
      { cbF with state := { NewState with status := .StatusHalfOpen } }
    ((execFails () 0 cbF 2).state.status = .StatusClosed ∧
     (execFails () 0 cbF 3).state.status = .StatusOpen) ∧
    ((execSuccs () 0 cbS 2).state.status = .StatusHalfOpen ∧
     (execSuccs () 0 cbS 3).state.status = .StatusClosed) := by
  intro cbF cbS
  refine ⟨⟨?_, ?_⟩, ?_, ?_⟩
  · exact ((threshold_strict_boundaries () () 0 cbF).1 rfl rfl rfl
      (by decide) (by decide)).1 2 (by decide)
  · exact ((threshold_strict_boundaries () () 0 cbF).1 rfl rfl rfl
      (by decide) (by decide)).2
  · exact ((threshold_strict_boundaries () () 0 cbS).2 rfl rfl rfl
      (by decide) (by decide)).1 2 (by decide)
  · exact ((threshold_strict_boundaries () () 0 cbS).2 rfl rfl rfl
      (by decide) (by decide)).2

/-- C6: recording a failure zeroes the success streak, recording a success
zeroes the failure streak, and `Reset` zeroes both, so from any counter in
which at most one streak is nonzero, any sequence of `Fail`, `Success`
and `Reset` calls keeps at most one streak nonzero. -/
theorem counter_streaks_mutually_exclusive (c : Counter)
    (ops : List CounterOp) (h : c.mutexFree) :
    (c.applyAll ops).mutexFree := by
  induction ops generalizing c with
  | nil => exact h
  | cons op ops ih =>
    refine ih (c.apply op) ?_
    cases op with
    | fail now => exact Or.inr rfl
    | succ now => exact Or.inl rfl
    | reset => exact Or.inl rfl

/-- C6 witness: a fresh counter satisfies the invariant and still does
after a concrete `Fail`, `Fail`, `Success`, `Reset`, `Fail` sequence. -/
theorem counter_streaks_mutually_exclusive_witness :
    Counter.new.mutexFree ∧
    (Counter.new.applyAll
      [.fail 1, .fail 2, .succ 3, .reset, .fail 4]).mutexFree :=
  ⟨Or.inl rfl,
   counter_streaks_mutually_exclusive Counter.new
     [.fail 1, .fail 2, .succ 3, .reset, .fail 4] (Or.inl rfl)⟩

/-- C7: `Fail` returns `1` when the gap since the last failure exceeds
`resetPeriod` (the streak restarts) and the previous count plus one
otherwise (as a `uint32`, hence the `% 2 ^ 32`; the plain `+ 1` reading
holds whenever the incremented count fits in 32 bits); in both cases it
stamps `lastFail = now` and returns the post-increment stored count.
`Success` behaves symmetrically on the success fields. -/
theorem counter_record_decay_and_increment (c : Counter) (now : Int) :
    ((now - c.lastFail > c.resetPeriod → (c.Fail now).2 = 1) ∧
     (now - c.lastFail ≤ c.resetPeriod →
       (c.Fail now).2 = (c.failure + 1) % 2 ^ 32 ∧
       (c.failure + 1 < 2 ^ 32 → (c.Fail now).2 = c.failure + 1)) ∧
     ((c.Fail now).1).lastFail = now ∧
     (c.Fail now).2 = ((c.Fail now).1).failure) ∧
    ((now - c.lastSuccess > c.resetPeriod → (c.Success now).2 = 1) ∧
     (now - c.lastSuccess ≤ c.resetPeriod →
       (c.Success now).2 = (c.success + 1) % 2 ^ 32 ∧
       (c.success + 1 < 2 ^ 32 → (c.Success now).2 = c.success + 1)) ∧
     ((c.Success now).1).lastSuccess = now ∧
     (c.Success now).2 = ((c.Success now).1).success) := by
  constructor
  · refine ⟨fun hgt => ?_, fun hle => ?_, rfl, rfl⟩
    · unfold Counter.Fail
      rw [if_pos hgt]
      rfl
    · unfold Counter.Fail
      rw [if_neg (not_lt.mpr hle)]
      exact ⟨rfl, fun hfit => Nat.mod_eq_of_lt hfit⟩
  · refine ⟨fun hgt => ?_, fun hle => ?_, rfl, rfl⟩
    · unfold Counter.Success
      rw [if_pos hgt]
      rfl
    · unfold Counter.Success
      rw [if_neg (not_lt.mpr hle)]
      exact ⟨rfl, fun hfit => Nat.mod_eq_of_lt hfit⟩

/-- C7 witness: with `failure = 2`, `lastFail = 0`, `resetPeriod = 10`, a
`Fail` at `now = 5` returns `3` (no decay), and one at `now = 11` returns
`1` (the streak restarts); symmetrically for `Success`. -/
theorem counter_record_decay_and_increment_witness :
    let c : Counter := { failure := 2, success := 0, lastFail := 0,
                         lastSuccess := 0, resetPeriod := 10 }
    (c.Fail 11).2 = 1 ∧ (c.Fail 5).2 = 2 + 1 ∧
    ((c.Fail 5).1).lastFail = 5 := by
  intro c
  refine ⟨?_, ?_, ?_⟩
  · exact (counter_record_decay_and_increment c 11).1.1 (by decide)
  · exact (((counter_record_decay_and_increment c 5).1.2.1
      (by decide)).2 (by decide))
  · exact (counter_record_decay_and_increment c 5).1.2.2.1

/-- C8: the claim asserts that no counter field is ever mutated without
holding the counter's mutex.  `Fail` and `Success` satisfy this
(`Lock` with a deferred `Unlock` around all writes), but `Counter.Reset`
calls `c.Lock()` immediately followed by `c.Unlock()` (no `defer`), so its
four field writes execute after the mutex has been released. -/
theorem counter_reset_mutation_outside_lock :
    guarded false counterFailTrace = true ∧
    guarded false counterSuccessTrace = true ∧
    guarded false counterResetTrace = false := by
  decide

/-- C9: `Reset()` from any breaker state zeroes both streak counters,
clears the manual-block flag, makes every subsequent `Status()` read (at
any instant) report `Closed`, and is idempotent: a second `Reset()` at the
same instant leaves the breaker exactly as the first did. -/
theorem breaker_reset_power_on (cb : CircuitBreaker) (now : Int) :
    ((cb.Reset now).counter.failure = 0 ∧
     (cb.Reset now).counter.success = 0) ∧
    (cb.Reset now).blocked = false ∧
    (∀ t : Int, ((cb.Reset now).state.Status t).2 = .StatusClosed) ∧
    (cb.Reset now).Reset now = cb.Reset now := by
  refine ⟨⟨rfl, rfl⟩, rfl, fun t => ?_, rfl⟩
  rw [State.Status_of_ne_open _ t (by intro h; cases h)]
  rfl

/-- C10: `Reset()` leaves the configured thresholds, the counter's decay
period, the state's open period, the service name and the logger
untouched: it clears the dynamic state but preserves a custom
configuration. -/
theorem breaker_reset_frame (cb : CircuitBreaker) (now : Int) :
    (cb.Reset now).service = cb.service ∧
    (cb.Reset now).failureThreshold = cb.failureThreshold ∧
    (cb.Reset now).successThreshold = cb.successThreshold ∧
    (cb.Reset now).counter.resetPeriod = cb.counter.resetPeriod ∧
    (cb.Reset now).state.openPeriod = cb.state.openPeriod ∧
    (cb.Reset now).logger = cb.logger :=
  ⟨rfl, rfl, rfl, rfl, rfl, rfl⟩

end CircuitBreakerGo
